import Mathlib

/-!
Formal model of the repository-access reconciliation and deployment-polling
core of the major-technology/cli Go repository.

The Go sources are shallowly embedded: pure string manipulation (the Go
`strings` package helpers the code uses) is modelled over `List Char`,
side-effecting collaborators (the `git`/`ssh` binaries, the backend API,
the keychain, interactive forms) are modelled as oracle parameters, and Go
`error` values are modelled by the inductive `GoError` (covering plain
`errors.New`/`fmt.Errorf` errors, `fmt.Errorf("%s: %w", ...)` wrapping
errors, the repository's `CLIError` struct, and its
`InvitationPendingError` struct).
-/

set_option maxRecDepth 10000

/-! ## Go `strings` helpers (ASCII case folding and whitespace, which is all
the embedded code relies on) -/

/-- Go `strings.HasPrefix` over character lists: the first list is the
pattern, the second the searched list. -/
def hasPrefixChars : List Char → List Char → Bool
  | [], _ => true
  | _ :: _, [] => false
  | b :: bs, a :: as => a == b && hasPrefixChars bs as

/-- Go `strings.Contains` over character lists: `sub` occurs in the second list. -/
def listContainsSeq (sub : List Char) : List Char → Bool
  | [] => hasPrefixChars sub []
  | c :: cs => hasPrefixChars sub (c :: cs) || listContainsSeq sub cs

/-- Go `strings.Contains s sub`. -/
def strContains (s sub : String) : Bool := listContainsSeq sub.data s.data

/-- Go `strings.HasPrefix s p`. -/
def strStartsWith (s p : String) : Bool := hasPrefixChars p.data s.data

/-- Go `strings.HasSuffix s suf`. -/
def strEndsWith (s suf : String) : Bool := hasPrefixChars suf.data.reverse s.data.reverse

/-- ASCII lower-casing of one character, the fragment of Go
`strings.ToLower` exercised by the embedded code (its pattern strings are
ASCII). -/
def charToLower (c : Char) : Char :=
  if 65 ≤ c.toNat && c.toNat ≤ 90 then Char.ofNat (c.toNat + 32) else c

/-- Go `strings.ToLower` (ASCII fragment). -/
def strToLower (s : String) : String := ⟨s.data.map charToLower⟩

/-- Drop leading whitespace characters from a character list. -/
def dropLeadingSpace : List Char → List Char
  | [] => []
  | c :: cs => if c.isWhitespace then dropLeadingSpace cs else c :: cs

/-- Go `strings.TrimSpace` (ASCII whitespace fragment): trim whitespace from
both ends. -/
def strTrimSpace (s : String) : String :=
  ⟨(dropLeadingSpace (dropLeadingSpace s.data).reverse).reverse⟩

/-- Go `strings.TrimSuffix s suf`: remove one copy of `suf` when it is a
suffix of `s`, else return `s` unchanged. -/
def strTrimSuffixOnce (s suf : String) : String :=
  if strEndsWith s suf then ⟨s.data.take (s.data.length - suf.data.length)⟩ else s

/-- The UTF-8 byte length of a string, Go `len(s)`. -/
def utf8Len (s : String) : Nat := s.data.foldl (fun n c => n + c.utf8Size) 0

/-! ## Go error values (`src/errors/errors.go`, `src/utils/git_helper.go`) -/

/-- A Go `error` value as the embedded code can observe it: a leaf error
(`errors.New` / non-wrapping `fmt.Errorf`), a wrapping error
(`fmt.Errorf("...%w...")`, message plus `Unwrap`), the repository's
`CLIError{Title, Suggestion, Err}` (whose `Error()` is the title and whose
`Unwrap` returns the possibly-nil `Err`), or its
`InvitationPendingError{URL}`. `nilErr` models Go's nil error, the value
a nillable error field such as `CLIError.Err` may hold. -/
inductive GoError where
  | base : String → GoError
  | wrapped : String → GoError → GoError
  | cli : String → String → GoError → GoError
  | invitationPending : String → GoError
  | nilErr : GoError
  deriving DecidableEq, Repr

/-- `Error()` of a `GoError`: `CLIError.Error` returns the title
(`src/errors/errors.go`), `InvitationPendingError.Error` formats the URL
(`src/utils/git_helper.go`). Go never calls `Error()` on a nil error (it
would panic); `nilErr` is mapped to the empty string. -/
def errMsg : GoError → String
  | .base m => m
  | .wrapped m _ => m
  | .cli title _ _ => title
  | .invitationPending url => "GitHub invitation pending. Accept at: " ++ url
  | .nilErr => ""

/-- `errors.Unwrap`: only wrapping errors and `CLIError` implement `Unwrap`,
and an unwrap to nil ends a chain walk. -/
def unwrapOne : GoError → Option GoError
  | .base _ => none
  | .wrapped _ e => some e
  | .cli _ _ .nilErr => none
  | .cli _ _ e => some e
  | .invitationPending _ => none
  | .nilErr => none

/-- The unwrap chain of an error: the error itself followed by the chain of
its `errors.Unwrap`, as walked by `for e := err; e != nil; e = Unwrap(e)`
(a nil error yields the empty chain: the loop body never runs). -/
def errChain : GoError → List GoError
  | .base m => [.base m]
  | .wrapped m e => .wrapped m e :: errChain e
  | .cli t s .nilErr => [.cli t s .nilErr]
  | .cli t s e => .cli t s e :: errChain e
  | .invitationPending u => [.invitationPending u]
  | .nilErr => []

/-- Go `errors.Is(e, target)` for targets without an `Is` method: walk the
unwrap chain comparing against the target. -/
def errChainContains (e target : GoError) : Bool :=
  (errChain e).any (fun x => x == target)

/-- The `Suggestion` field when the error is a `CLIError`. -/
def cliSuggestion : GoError → Option String
  | .cli _ s _ => some s
  | _ => none

/-- `errors.As(e, &cliError)`: the fields (Title, Suggestion, Err) of the
first `CLIError` in the unwrap chain, if any. -/
def firstCLIError : GoError → Option (String × String × GoError)
  | .cli t s e => some (t, s, e)
  | .wrapped _ e => firstCLIError e
  | .base _ => none
  | .invitationPending _ => none
  | .nilErr => none

/-- `fmt.Errorf("%s: %w", msg, e)`: for a non-nil `e`, the formatted message
with `e` reachable by `Unwrap`; a nil operand yields a non-wrapping error
whose message renders the operand as `%!w(<nil>)`. -/
def fmtErrorfWrap (msg : String) : GoError → GoError
  | .nilErr => .base (msg ++ ": %!w(<nil>)")
  | e => .wrapped (msg ++ ": " ++ errMsg e) e

/-- `errors.WrapError` (src/errors/errors.go lines 29-44): if the wrapped
error's chain holds a `CLIError`, keep that error's suggestion and wrap that
error's own `Err`; otherwise wrap the given error directly. -/
def WrapError (msg : String) (ogerr : GoError) : GoError :=
  match firstCLIError ogerr with
  | some (_, suggestion, inner) => .cli msg suggestion (fmtErrorfWrap msg inner)
  | none => .cli msg "" (fmtErrorfWrap msg ogerr)

/-- `errors.ErrorGitRepositoryAccessFailed` (src/errors/errors.go lines 336-340). -/
def ErrorGitRepositoryAccessFailed : GoError :=
  .cli "Failed to access repository after accepting invitation"
    "Please check your SSH keys are configured correctly. Run 'ssh -T git@github.com' to test your GitHub SSH connection."
    (.base "failed to access repository after accepting invitation")

/-- `errors.ErrorRepositoryAccessTimeout` (src/errors/errors.go lines 348-352). -/
def ErrorRepositoryAccessTimeout : GoError :=
  .cli "Timeout waiting for repository access"
    "Please try again after accepting the invitation."
    (.base "timeout waiting for repository access")

/-! ## Git auth-error classification (src/cmd/app/helper.go lines 147-175) -/

/-- The fixed substrings of `isGitAuthError` (src/cmd/app/helper.go). -/
def authErrorPatterns : List String :=
  ["repository not found",
   "could not read from remote repository",
   "authentication failed",
   "permission denied",
   "403",
   "401",
   "access denied",
   "fatal: unable to access"]

/-- One error message matches when its lower-cased form holds one of the
fixed substrings. -/
def msgMatchesAuthPattern (m : String) : Bool :=
  authErrorPatterns.any (fun p => strContains (strToLower m) p)

/-- `isGitAuthError` (src/cmd/app/helper.go lines 147-175): walk the whole
unwrap chain and test every error's lower-cased message against the fixed
patterns. -/
def isGitAuthError (err : GoError) : Bool :=
  (errChain err).any (fun e => msgMatchesAuthPattern (errMsg e))

/-! ## Deployment status polling (src/cmd/app/deploy.go) -/

/-- The response of `GetVersionStatus` as the poller reads it
(`statusMsg` in src/cmd/app/deploy.go). -/
structure VersionStatusResponse where
  status : String
  deploymentError : String
  appURL : String
  deriving DecidableEq, Repr

/-- One status fetch: either a response or a transport error. -/
inductive FetchResult where
  | ok : VersionStatusResponse → FetchResult
  | fetchFailed : GoError → FetchResult
  deriving DecidableEq, Repr

/-- `isTerminalStatus` (src/cmd/app/deploy.go lines 293-306): membership in
the fixed list of terminal statuses. -/
def isTerminalStatus (status : String) : Bool :=
  ["BUNDLE_FAILED", "BUILD_FAILED", "DEPLOY_FAILED", "DEPLOYED"].any
    (fun s => status == s)

/-- The seven status strings the poller's display recognizes
(`getStatusDisplay`, src/cmd/app/deploy.go lines 308-327); every other
string falls to the default "Processing" branch and is non-terminal. -/
def recognizedStatuses : List String :=
  ["BUNDLING", "BUILDING", "DEPLOYING", "DEPLOYED",
   "BUNDLE_FAILED", "BUILD_FAILED", "DEPLOY_FAILED"]

/-- The poller's final observation. -/
inductive PollOutcome where
  | finished : VersionStatusResponse → PollOutcome
  | transportError : GoError → PollOutcome
  | stillPolling : PollOutcome
  deriving DecidableEq, Repr

/-- The deployment-status polling loop (the `statusMsg`/`tickMsg` cycle of
`deploymentStatusModel.Update` together with `pollDeploymentStatus`,
src/cmd/app/deploy.go lines 185-238 and 329-360), run against a sequence of
fetch results. On a fetch error the model stores the error and quits, and
the driver returns it; on a terminal status it quits with that response; on
a non-terminal status it schedules another fetch. The second component
counts the fetches performed; a sequence exhausted without a terminal
observation leaves the loop still polling. -/
def pollDeploymentStatus : List FetchResult → PollOutcome × Nat
  | [] => (.stillPolling, 0)
  | .fetchFailed e :: _ => (.transportError e, 1)
  | .ok r :: rest =>
    if isTerminalStatus r.status then (.finished r, 1)
    else
      let (o, n) := pollDeploymentStatus rest
      (o, n + 1)

/-- What `runDeploy` prints after polling (src/cmd/app/deploy.go lines
133-148): success exactly on final status `DEPLOYED` (with the app URL),
otherwise a failure report carrying the final status and the deployment
error text unmodified. -/
inductive DeployReport where
  | successReport : String → DeployReport
  | failureReport : String → String → DeployReport
  deriving DecidableEq, Repr

/-- The final-status branch of `runDeploy` (src/cmd/app/deploy.go lines 133-148). -/
def deployFinalReport (finalStatus deploymentError appURL : String) : DeployReport :=
  if finalStatus == "DEPLOYED" then .successReport appURL
  else .failureReport finalStatus deploymentError

/-! ## Remote URL parsing (src/clients/git/client.go lines 86-113) -/

/-- Parsed remote information (`RemoteInfo` in src/clients/git/client.go). -/
structure RemoteInfo where
  owner : String
  repo : String
  deriving DecidableEq, Repr

/-- `errors.ErrorUnsupportedGitRemoteURLWithFormat` (src/errors/errors.go
lines 138-144). -/
def ErrorUnsupportedGitRemoteURLWithFormat (url : String) : GoError :=
  .cli "Unsupported git remote URL format"
    ("Only GitHub SSH (git@github.com:owner/repo.git) and HTTPS (https://github.com/owner/repo.git) URLs are supported.\n\nReceived: " ++ url)
    (.base ("unsupported git remote URL format: " ++ url))

/-- Split a character list at its first `/`: the characters before it and
the characters after it. `none` when no `/` occurs. -/
def breakAtSlash : List Char → Option (List Char × List Char)
  | [] => none
  | c :: cs =>
    if c == '/' then some ([], cs)
    else match breakAtSlash cs with
      | none => none
      | some (l, r) => some (c :: l, r)

/-- The lazy capture group `([^/]+?)` followed by `(\.git)?$`: the group
takes everything except a final `.git`, which it keeps when dropping it
would leave the group empty. -/
def stripDotGitLazy (rest : String) : String :=
  if strEndsWith rest ".git" && decide (5 ≤ rest.data.length) then
    ⟨rest.data.take (rest.data.length - 4)⟩
  else rest

/-- The common tail `([^/]+)/([^/]+?)(\.git)?$` of both remote-URL regexes:
a non-empty owner, one `/`, a non-empty repo segment without `/`, with the
repo given by the lazy group and then `strings.TrimSuffix(matches[2],
".git")` applied, exactly as in `ParseRemoteURL`. -/
def parseOwnerRepoTail (r : String) : Option RemoteInfo :=
  match breakAtSlash r.data with
  | none => none
  | some (ownerChars, restChars) =>
    if ownerChars.isEmpty then none
    else if restChars.isEmpty then none
    else if restChars.contains '/' then none
    else some ⟨⟨ownerChars⟩, strTrimSuffixOnce (stripDotGitLazy ⟨restChars⟩) ".git"⟩

/-- Drop the first `n` characters of a string. -/
def dropChars (s : String) (n : Nat) : String := ⟨s.data.drop n⟩

/-- The regex stage of `ParseRemoteURL` (src/clients/git/client.go lines
91-113), applied to the already-trimmed URL: the SSH pattern
`^git@github\.com:([^/]+)/([^/]+?)(\.git)?$` is tried first, then the HTTPS
pattern `^https://github\.com/([^/]+)/([^/]+?)(\.git)?$`; anything else is
the unsupported-format error echoing the URL. Both patterns are anchored on
a fixed head, so they are modelled as that head plus the shared tail. -/
def ParseRemoteURLCore (u : String) : Except GoError RemoteInfo :=
  if strStartsWith u "git@github.com:" then
    match parseOwnerRepoTail (dropChars u 15) with
    | some info => .ok info
    | none => .error (ErrorUnsupportedGitRemoteURLWithFormat u)
  else if strStartsWith u "https://github.com/" then
    match parseOwnerRepoTail (dropChars u 19) with
    | some info => .ok info
    | none => .error (ErrorUnsupportedGitRemoteURLWithFormat u)
  else .error (ErrorUnsupportedGitRemoteURLWithFormat u)

/-- `ParseRemoteURL` (src/clients/git/client.go lines 91-113): the input is
first passed through `strings.TrimSpace`, then matched. -/
def ParseRemoteURL (remoteURL : String) : Except GoError RemoteInfo :=
  ParseRemoteURLCore (strTrimSpace remoteURL)

/-- The successful result of a parse, `none` on a parse error. -/
def parseOk : Except GoError RemoteInfo → Option RemoteInfo
  | .ok info => some info
  | .error _ => none

/-! ## Slug validation (src/cmd/app/deploy.go lines 374-401) -/

/-- The reserved slugs map (src/cmd/app/deploy.go lines 374-380). -/
def reservedSlugs : List String :=
  ["admin", "api", "www", "app", "mail", "ftp", "staging", "prod",
   "dev", "test", "beta", "status", "help", "support", "docs", "blog",
   "dashboard", "internal", "major"]

/-- A character of the class `[a-z0-9]`. -/
def isLowerAlnum (c : Char) : Bool :=
  ('a' ≤ c && c ≤ 'z') || ('0' ≤ c && c ≤ '9')

/-- The group `([a-z0-9-]*[a-z0-9])?` of `slugRegex`: empty, or interior
characters from `[a-z0-9-]` ending in `[a-z0-9]`. -/
def slugBodyMatch : List Char → Bool
  | [] => true
  | [c] => isLowerAlnum c
  | c :: c2 :: cs => (isLowerAlnum c || c == '-') && slugBodyMatch (c2 :: cs)

/-- `slugRegex = ^[a-z0-9]([a-z0-9-]*[a-z0-9])?$` (src/cmd/app/deploy.go
line 382). -/
def slugRegexMatch (s : String) : Bool :=
  match s.data with
  | [] => false
  | c :: cs => isLowerAlnum c && slugBodyMatch cs

/-- `validateSlug` (src/cmd/app/deploy.go lines 384-401): `none` models the
nil return, `some msg` the error with its message. Go `len` is the UTF-8
byte length. -/
def validateSlug (s : String) : Option String :=
  if utf8Len s < 3 then some "slug must be at least 3 characters"
  else if utf8Len s > 63 then some "slug must be at most 63 characters"
  else if !slugRegexMatch s then
    some "slug must be lowercase alphanumeric with hyphens, no leading/trailing hyphens"
  else if reservedSlugs.contains s then some "this slug is reserved"
  else if strStartsWith s "s-" || strStartsWith s "vs-" then
    some "slugs starting with 's-' or 'vs-' are reserved"
  else none

/-! ## Git operation retry wrapper (src/cmd/app/helper.go lines 178-202) -/

/-- `maxRetries` in `ensureGitRepositoryWithRetries`. -/
def maxRetries : Nat := 3

/-- `baseDelay` in `ensureGitRepositoryWithRetries`, in milliseconds. -/
def baseDelayMs : Nat := 200

/-- What one run of the retry wrapper did: how many times
`ensureGitRepository` was called, the sleeps (in ms, in order) taken before
retries, and the returned error (`none` models the nil return). -/
structure RetryTrace where
  attempts : Nat
  sleepsMs : List Nat
  result : Option GoError
  deriving DecidableEq, Repr

/-- The retry loop of `ensureGitRepositoryWithRetries` (src/cmd/app/helper.go
lines 178-202). `attemptResults k` is the outcome of the `k`-th call of
`ensureGitRepository` (`none` = success); the operation itself (clone or
pull, decided by a fresh directory check each attempt) is opaque to the
loop. Before every attempt after the first the loop sleeps
`baseDelay * 2^(attempt-1)`. A success returns nil; an error that is not a
git auth error is returned immediately; exhausting the attempts returns
`ErrorGitRepositoryAccessFailed`. -/
def retryAux (attemptResults : Nat → Option GoError) :
    List Nat → Nat → List Nat → RetryTrace
  | [], calls, sleeps => ⟨calls, sleeps.reverse, some ErrorGitRepositoryAccessFailed⟩
  | attempt :: more, calls, sleeps =>
    let sleeps2 := if attempt == 0 then sleeps
      else baseDelayMs * 2 ^ (attempt - 1) :: sleeps
    match attemptResults attempt with
    | none => ⟨calls + 1, sleeps2.reverse, none⟩
    | some e =>
      if isGitAuthError e then retryAux attemptResults more (calls + 1) sleeps2
      else ⟨calls + 1, sleeps2.reverse, some e⟩

/-- `ensureGitRepositoryWithRetries` (src/cmd/app/helper.go lines 178-202):
the loop `for attempt := 0; attempt < maxRetries; attempt++` runs over the
attempt indices `List.range maxRetries`. -/
def ensureGitRepositoryWithRetries (attemptResults : Nat → Option GoError) :
    RetryTrace :=
  retryAux attemptResults (List.range maxRetries) 0 []

/-! ## Repository access reconciler (src/utils/git_helper.go) -/

/-- The environment one access probe runs in: whether the live SSH
handshake to github.com succeeds (`CanUseSSH`), and the result of
`git ls-remote --heads` per URL (`testGitAccess`). -/
structure ProbeEnv where
  canUseSSH : Bool
  lsRemoteOk : String → Bool

/-- `CheckRepositoryAccess` (src/utils/git_helper.go lines 91-105): probe
the SSH URL when SSH connectivity is available and an SSH URL is given,
else fall back to the HTTPS URL when given. -/
def CheckRepositoryAccess (p : ProbeEnv) (sshURL httpsURL : String) : Bool :=
  if p.canUseSSH && !(sshURL == "") then p.lsRemoteOk sshURL
  else if !(httpsURL == "") then p.lsRemoteOk httpsURL
  else false

/-- `ExtractGitHubURL` (src/utils/git_helper.go lines 119-131). -/
def ExtractGitHubURL (cloneURL : String) : Except GoError String :=
  if cloneURL == "" then .error (.base "clone URL is empty")
  else match ParseRemoteURL cloneURL with
    | .error e => .error e
    | .ok info => .ok ("https://github.com/" ++ info.owner ++ "/" ++ info.repo)

/-- The poll interval of `pollForRepositoryAccess`, in seconds. -/
def pollIntervalSeconds : Nat := 2

/-- The poll timeout of `pollForRepositoryAccess`, in seconds. -/
def pollTimeoutSeconds : Nat := 300

/-- How many ticker fires fit in the timeout window when each access check
is instantaneous: the poll loop checks access once per tick. -/
def maxPollChecks : Nat := pollTimeoutSeconds / pollIntervalSeconds

/-- The ticker/timeout loop of `pollForRepositoryAccess`
(src/utils/git_helper.go lines 256-272): `check k` is the result of the
`k`-th `CheckRepositoryAccess` call inside the loop; the first positive
check returns true, a negative check prints a progress dot and waits for
the next tick, and the timeout firing with no positive check returns
false. The second component counts the checks performed. -/
def pollAux (check : Nat → Bool) : Nat → Nat → Bool × Nat
  | _, 0 => (false, 0)
  | k, remaining + 1 =>
    if check k then (true, 1)
    else
      let (res, n) := pollAux check (k + 1) remaining
      (res, n + 1)

/-- `pollForRepositoryAccess` (src/utils/git_helper.go lines 256-272),
with time idealized: ticks every `pollIntervalSeconds`, timeout after
`pollTimeoutSeconds`, hence at most `maxPollChecks` checks. -/
def pollForRepositoryAccess (check : Nat → Bool) : Bool × Nat :=
  pollAux check 0 maxPollChecks

/-- `EnsureRepositoryAccessOptions` (src/utils/git_helper.go lines 134-139). -/
structure EnsureRepositoryAccessOptions where
  nonInteractive : Bool
  githubUsername : String
  deriving DecidableEq, Repr

/-- The oracles `EnsureRepositoryAccessWithOptions` consults: a fresh probe
environment per access check (`probeEnvs k` backs the `k`-th check —
access is never cached), the keychain's stored username (its read error is
discarded by the code; a read error is modelled as the empty string), the
SSH/git-config auto-detection result (`none` models a detection error),
the interactive username form, and the collaborator-add API call
(`none` = success). -/
structure AccessEnv where
  probeEnvs : Nat → ProbeEnv
  storedUsername : String
  detectedUsername : Option String
  promptResult : Except GoError String
  addCollabError : Option GoError

/-- What one reconciler run did: collaborator-add API calls made, the
username it resolved (if it got that far), and access checks performed
inside the propagation poll loop. -/
structure AccessTrace where
  collabCalls : Nat
  resolvedUsername : Option String
  pollChecks : Nat
  deriving DecidableEq, Repr

/-- The username-resolution block of `EnsureRepositoryAccessWithOptions`
(src/utils/git_helper.go lines 157-207): flag value first, then the stored
username, then SSH/git-config auto-detection; with nothing resolved,
non-interactive mode fails fast and interactive mode prompts. -/
def resolveGithubUsername (opts : EnsureRepositoryAccessOptions)
    (env : AccessEnv) : Except GoError String :=
  if !(opts.githubUsername == "") then .ok opts.githubUsername
  else
    let stored := env.storedUsername
    let stored2 := if stored == "" then
        match env.detectedUsername with
        | some u => if u == "" then stored else u
        | none => stored
      else stored
    if !(stored2 == "") then .ok stored2
    else if opts.nonInteractive then
      .error (.base "could not detect GitHub username. Run 'major user login' to set up GitHub access")
    else
      match env.promptResult with
      | .error e => .error (WrapError "failed to get GitHub username" e)
      | .ok u => .ok u

/-- The tail of `EnsureRepositoryAccessWithOptions` after a username is
resolved (src/utils/git_helper.go lines 209-251): call the collaborator-add
endpoint (a failure is wrapped and fatal), derive the invitation URL from
the HTTPS URL (falling back to the SSH URL), then either return the
invitation-pending error (non-interactive) or poll for access until
granted or timeout (interactive). -/
def ensureAfterUsername (sshURL httpsURL : String)
    (opts : EnsureRepositoryAccessOptions) (env : AccessEnv)
    (githubUsername : String) : Option GoError × AccessTrace :=
  match env.addCollabError with
  | some e => (some (WrapError "failed to add GitHub collaborator" e),
      ⟨1, some githubUsername, 0⟩)
  | none =>
    let cloneURL := if httpsURL == "" then sshURL else httpsURL
    let githubURL := match ExtractGitHubURL cloneURL with
      | .ok url => url
      | .error _ => ""
    if opts.nonInteractive then
      (some (.invitationPending githubURL), ⟨1, some githubUsername, 0⟩)
    else
      let (granted, n) := pollForRepositoryAccess
        (fun k => CheckRepositoryAccess (env.probeEnvs (k + 1)) sshURL httpsURL)
      if granted then (none, ⟨1, some githubUsername, n⟩)
      else (some ErrorRepositoryAccessTimeout, ⟨1, some githubUsername, n⟩)

/-- `EnsureRepositoryAccessWithOptions` (src/utils/git_helper.go lines
150-251): an initial access probe short-circuits the whole flow; otherwise
resolve a username, invite it as a collaborator, and hand off to the
non-interactive or interactive tail. -/
def EnsureRepositoryAccessWithOptions (sshURL httpsURL : String)
    (opts : EnsureRepositoryAccessOptions) (env : AccessEnv) :
    Option GoError × AccessTrace :=
  if CheckRepositoryAccess (env.probeEnvs 0) sshURL httpsURL then
    (none, ⟨0, none, 0⟩)
  else match resolveGithubUsername opts env with
    | .error e => (some e, ⟨0, none, 0⟩)
    | .ok u => ensureAfterUsername sshURL httpsURL opts env u

/-! ## Helper lemmas -/

theorem hasPrefixChars_append (p rest : List Char) :
    hasPrefixChars p (p ++ rest) = true := by
  induction p with
  | nil => rfl
  | cons c cs ih => simp [hasPrefixChars, ih]

theorem contains_eq_false_of_not_mem (l : List Char) (c : Char) (h : c ∉ l) :
    l.contains c = false := by
  rw [List.contains_eq_any_beq]
  by_contra hb
  rw [Bool.not_eq_false, List.any_eq_true] at hb
  obtain ⟨x, hx, hbeq⟩ := hb
  rw [beq_iff_eq] at hbeq
  exact h (hbeq ▸ hx)

theorem breakAtSlash_append (a b : List Char) (h : '/' ∉ a) :
    breakAtSlash (a ++ '/' :: b) = some (a, b) := by
  induction a with
  | nil => simp [breakAtSlash]
  | cons c cs ih =>
    have hc : (c == '/') = false := by
      simp only [beq_eq_false_iff_ne, ne_eq]
      intro hce
      exact h (by simp [hce])
    simp [breakAtSlash, hc, ih (fun hm => h (List.mem_cons_of_mem _ hm))]

theorem dropLeadingSpace_append_head (c : Char) (L X : List Char)
    (hc : c.isWhitespace = false) :
    dropLeadingSpace ((c :: L) ++ X) = (c :: L) ++ X := by
  simp [dropLeadingSpace, hc]

theorem dropLeadingSpace_reverse_ends (Z : List Char) (tail : String)
    (htne : tail.data ≠ [])
    (hws : ∀ ch ∈ tail.data, ch.isWhitespace = false) :
    dropLeadingSpace (Z ++ tail.data).reverse = (Z ++ tail.data).reverse := by
  obtain ⟨c, cs, hc⟩ := List.exists_cons_of_ne_nil
    (show tail.data.reverse ≠ [] from by simpa using htne)
  have hcw : c.isWhitespace = false := by
    refine hws c (List.mem_reverse.mp ?_)
    rw [hc]
    exact List.mem_cons_self c cs
  have hshape : (Z ++ tail.data).reverse = (c :: cs) ++ Z.reverse := by
    rw [List.reverse_append, hc]
  rw [hshape]
  exact dropLeadingSpace_append_head c _ _ hcw

theorem strTrimSpace_eq_self (s : String)
    (h1 : dropLeadingSpace s.data = s.data)
    (h2 : dropLeadingSpace s.data.reverse = s.data.reverse) :
    strTrimSpace s = s := by
  obtain ⟨l⟩ := s
  simp only [strTrimSpace] at *
  rw [h1, h2, List.reverse_reverse]

theorem strTrimSpace_build (lit rest : String) (c : Char) (L : List Char)
    (hlitd : lit.data = c :: L) (hcw : c.isWhitespace = false)
    (hback : dropLeadingSpace (lit ++ rest).data.reverse =
      (lit ++ rest).data.reverse) :
    strTrimSpace (lit ++ rest) = lit ++ rest := by
  refine strTrimSpace_eq_self _ ?_ hback
  have hshape : (lit ++ rest).data = (c :: L) ++ rest.data := by
    rw [String.data_append, hlitd]
  rw [hshape]
  exact dropLeadingSpace_append_head c _ _ hcw

theorem parseOwnerRepoTail_no_git (owner repo : String)
    (hr : repo.data ≠ []) (ho' : '/' ∉ owner.data) (hr' : '/' ∉ repo.data)
    (hg : strEndsWith repo ".git" = false) :
    parseOwnerRepoTail (owner ++ "/" ++ repo) =
      if owner.data.isEmpty then none else some ⟨owner, repo⟩ := by
  obtain ⟨lo⟩ := owner
  obtain ⟨lr⟩ := repo
  have hdata : (String.mk lo ++ "/" ++ String.mk lr).data = lo ++ '/' :: lr := by
    simp
  unfold parseOwnerRepoTail
  rw [hdata, breakAtSlash_append lo lr ho']
  by_cases hlo : lo.isEmpty
  · simp [hlo]
  · have hlr : lr.isEmpty = false := by
      cases lr with
      | nil => exact absurd rfl hr
      | cons c cs => rfl
    have hcont : lr.contains '/' = false := contains_eq_false_of_not_mem lr '/' hr'
    simp only [hlo, hlr, hcont, Bool.false_eq_true, if_false, if_neg]
    simp [stripDotGitLazy, strTrimSuffixOnce, hg]

theorem parseOwnerRepoTail_git (owner repo : String)
    (ho : owner.data ≠ []) (hr : repo.data ≠ [])
    (ho' : '/' ∉ owner.data) (hr' : '/' ∉ repo.data)
    (hg : strEndsWith repo ".git" = false) :
    parseOwnerRepoTail (owner ++ "/" ++ repo ++ ".git") = some ⟨owner, repo⟩ := by
  obtain ⟨lo⟩ := owner
  obtain ⟨lr⟩ := repo
  have hdata : (String.mk lo ++ "/" ++ String.mk lr ++ ".git").data =
      lo ++ '/' :: (lr ++ ['.', 'g', 'i', 't']) := by
    simp
  unfold parseOwnerRepoTail
  rw [hdata, breakAtSlash_append lo _ ho']
  have hlo : lo.isEmpty = false := by
    cases lo with
    | nil => exact absurd rfl ho
    | cons c cs => rfl
  have hlr2 : (lr ++ ['.', 'g', 'i', 't']).isEmpty = false := by
    cases lr <;> rfl
  have hcont : (lr ++ ['.', 'g', 'i', 't']).contains '/' = false := by
    refine contains_eq_false_of_not_mem _ _ ?_
    intro hmem
    rcases List.mem_append.mp hmem with h | h
    · exact hr' h
    · simp at h
  simp only [hlo, hlr2, hcont, Bool.false_eq_true, if_false]
  have hstrip : stripDotGitLazy ⟨lr ++ ['.', 'g', 'i', 't']⟩ = ⟨lr⟩ := by
    have hsuf : strEndsWith ⟨lr ++ ['.', 'g', 'i', 't']⟩ ".git" = true := by
      show hasPrefixChars (".git" : String).data.reverse
        (lr ++ ['.', 'g', 'i', 't']).reverse = true
      have : (lr ++ ['.', 'g', 'i', 't']).reverse =
          ['t', 'i', 'g', '.'] ++ lr.reverse := by simp
      rw [this]
      exact hasPrefixChars_append _ _
    have hlr1 : 1 ≤ lr.length := by
      cases lr with
      | nil => exact absurd rfl hr
      | cons c cs => simp
    rw [stripDotGitLazy, if_pos (by simp [hsuf]; omega)]
    have : (lr ++ ['.', 'g', 'i', 't']).length - 4 = lr.length := by
      simp only [List.length_append, List.length_cons, List.length_nil]
      omega
    rw [this]
    congr 1
    exact List.take_left lr _
  rw [hstrip]
  simp [strTrimSuffixOnce, hg]

theorem ParseRemoteURLCore_ssh (rest : String) :
    ParseRemoteURLCore ("git@github.com:" ++ rest) =
      match parseOwnerRepoTail rest with
      | some info => .ok info
      | none => .error (ErrorUnsupportedGitRemoteURLWithFormat
          ("git@github.com:" ++ rest)) := rfl

theorem ParseRemoteURLCore_https (rest : String) :
    ParseRemoteURLCore ("https://github.com/" ++ rest) =
      match parseOwnerRepoTail rest with
      | some info => .ok info
      | none => .error (ErrorUnsupportedGitRemoteURLWithFormat
          ("https://github.com/" ++ rest)) := rfl

theorem mem_errChain_self (x : GoError) (hx : x ≠ .nilErr) : x ∈ errChain x := by
  cases x with
  | base m => simp [errChain]
  | wrapped m e => simp [errChain]
  | invitationPending u => simp [errChain]
  | nilErr => exact absurd rfl hx
  | cli t s inner => cases inner <;> simp [errChain]

theorem retry_characterization (f : Nat → Option GoError) :
    ensureGitRepositoryWithRetries f =
      match f 0 with
      | none => ⟨1, [], none⟩
      | some e0 =>
        if isGitAuthError e0 then
          match f 1 with
          | none => ⟨2, [200], none⟩
          | some e1 =>
            if isGitAuthError e1 then
              match f 2 with
              | none => ⟨3, [200, 400], none⟩
              | some e2 =>
                if isGitAuthError e2 then
                  ⟨3, [200, 400], some ErrorGitRepositoryAccessFailed⟩
                else ⟨3, [200, 400], some e2⟩
            else ⟨2, [200], some e1⟩
        else ⟨1, [], some e0⟩ := by
  show retryAux f [0, 1, 2] 0 [] = _
  cases h0 : f 0 with
  | none => simp [retryAux, h0]
  | some e0 =>
    by_cases a0 : isGitAuthError e0
    · cases h1 : f 1 with
      | none => simp [retryAux, h0, h1, a0, baseDelayMs]
      | some e1 =>
        by_cases a1 : isGitAuthError e1
        · cases h2 : f 2 with
          | none => simp [retryAux, h0, h1, h2, a0, a1, baseDelayMs]
          | some e2 =>
            by_cases a2 : isGitAuthError e2
            · simp [retryAux, h0, h1, h2, a0, a1, a2, baseDelayMs]
            · simp [retryAux, h0, h1, h2, a0, a1, a2, baseDelayMs]
        · simp [retryAux, h0, h1, a0, a1, baseDelayMs]
    · simp [retryAux, h0, a0]

theorem pollAux_first_success (check : Nat → Bool) :
    ∀ fuel start k, k < fuel → (∀ j, j < k → check (start + j) = false) →
      check (start + k) = true →
      pollAux check start fuel = (true, k + 1) := by
  intro fuel
  induction fuel with
  | zero => intro start k hk; omega
  | succ n ih =>
    intro start k hk hfalse htrue
    cases k with
    | zero =>
      simp only [Nat.add_zero] at htrue
      simp [pollAux, htrue]
    | succ k' =>
      have h0 : check start = false := by simpa using hfalse 0 (Nat.succ_pos k')
      have ih2 := ih (start + 1) k' (by omega)
        (fun j hj => by
          have := hfalse (j + 1) (by omega)
          simpa [Nat.add_assoc, Nat.add_comm 1 j] using this)
        (by simpa [Nat.add_assoc, Nat.add_comm 1 k'] using htrue)
      simp [pollAux, h0, ih2]

theorem pollAux_timeout (check : Nat → Bool) :
    ∀ fuel start, (∀ j, j < fuel → check (start + j) = false) →
      pollAux check start fuel = (false, fuel) := by
  intro fuel
  induction fuel with
  | zero => intro start _; rfl
  | succ n ih =>
    intro start hfalse
    have h0 : check start = false := by simpa using hfalse 0 (Nat.succ_pos n)
    have ih2 := ih (start + 1) (fun j hj => by
      have := hfalse (j + 1) (by omega)
      simpa [Nat.add_assoc, Nat.add_comm 1 j] using this)
    simp [pollAux, h0, ih2]

/-! ## Claim theorems -/

/-- C1 counterexample: the status string "PROVISION_FAILED" carries the
`_FAILED` suffix yet is not terminal for the poller — `isTerminalStatus`
recognizes only the three enumerated `*_FAILED` values, so a fetch of
"PROVISION_FAILED" leaves the poller polling instead of stopping with a
failure report, contradicting the claim's universal `_FAILED` clause (which
also contradicts its own never-stop clause for strings outside the enum). -/
theorem deploy_poller_failed_suffix_counterexample :
    strEndsWith "PROVISION_FAILED" "_FAILED" = true ∧
    isTerminalStatus "PROVISION_FAILED" = false ∧
    pollDeploymentStatus [.ok ⟨"PROVISION_FAILED", "disk quota exceeded", ""⟩] =
      (.stillPolling, 1) := by
  refine ⟨by decide, by decide, by decide⟩

/-- C1 (amended): the deployment status poller reports success if and only
if the final fetched status is the exact string "DEPLOYED"; for each of the
three recognized `_FAILED` statuses (BUNDLE_FAILED, BUILD_FAILED,
DEPLOY_FAILED) it stops polling at once and the final report is a failure
carrying the response's deployment_error text unmodified; and every status
string outside the recognized enum is non-terminal: the poller never stops
on it. -/
theorem deploy_poller_terminal_statuses :
    (∀ finalStatus deploymentError appURL : String,
      deployFinalReport finalStatus deploymentError appURL =
        .successReport appURL ↔ finalStatus = "DEPLOYED") ∧
    (∀ r : VersionStatusResponse, ∀ rest : List FetchResult,
      r.status ∈ (["BUNDLE_FAILED", "BUILD_FAILED", "DEPLOY_FAILED"] : List String) →
      pollDeploymentStatus (.ok r :: rest) = (.finished r, 1) ∧
      deployFinalReport r.status r.deploymentError r.appURL =
        .failureReport r.status r.deploymentError) ∧
    (∀ s : String, s ∉ recognizedStatuses →
      isTerminalStatus s = false ∧
      ∀ d u : String, ∀ rest : List FetchResult,
        pollDeploymentStatus (.ok ⟨s, d, u⟩ :: rest) =
          ((pollDeploymentStatus rest).1, (pollDeploymentStatus rest).2 + 1)) := by
  refine ⟨?_, ?_, ?_⟩
  · intro fs de au
    by_cases h : fs = "DEPLOYED"
    · subst h; simp [deployFinalReport]
    · simp [deployFinalReport, h]
  · intro r rest hmem
    obtain ⟨st, de, au⟩ := r
    simp only [List.mem_cons, List.mem_singleton, List.not_mem_nil, or_false] at hmem
    rcases hmem with rfl | rfl | rfl <;>
      exact ⟨by simp [pollDeploymentStatus, isTerminalStatus],
             by simp [deployFinalReport]⟩
  · intro s hs
    have hterm : isTerminalStatus s = false := by
      by_contra h
      rw [Bool.not_eq_false] at h
      simp only [isTerminalStatus, List.any_eq_true, List.mem_cons, List.mem_singleton,
        List.not_mem_nil, or_false, beq_iff_eq] at h
      rcases h with ⟨t, ht, rfl⟩
      rcases ht with rfl | rfl | rfl | rfl <;> simp [recognizedStatuses] at hs
    refine ⟨hterm, ?_⟩
    intro d u rest
    cases hpoll : pollDeploymentStatus rest with
    | mk o n => simp [pollDeploymentStatus, hterm, hpoll]

/-- C1 witness: the BUILD_FAILED branch of the amended theorem at a concrete
response. -/
theorem deploy_poller_terminal_statuses_witness :
    pollDeploymentStatus [.ok ⟨"BUILD_FAILED", "compile error", ""⟩] =
      (.finished ⟨"BUILD_FAILED", "compile error", ""⟩, 1) ∧
    deployFinalReport "BUILD_FAILED" "compile error" "" =
      .failureReport "BUILD_FAILED" "compile error" :=
  deploy_poller_terminal_statuses.2.1 ⟨"BUILD_FAILED", "compile error", ""⟩ []
    (by decide)

/-- C2: `isGitAuthError` classifies an error as an access error if and only
if some error in its unwrap chain has a lower-cased message containing one
of the fixed substrings, and the classification traverses at least three
levels of `fmt.Errorf`-style wrapping. -/
theorem git_auth_error_classification :
    (∀ err : GoError, isGitAuthError err = true ↔
      ∃ e ∈ errChain err, ∃ p ∈ authErrorPatterns,
        strContains (strToLower (errMsg e)) p = true) ∧
    (∀ m1 m2 m3 : String, ∀ err : GoError, isGitAuthError err = true →
      isGitAuthError (.wrapped m1 (.wrapped m2 (.wrapped m3 err))) = true) := by
  constructor
  · intro err
    simp [isGitAuthError, msgMatchesAuthPattern, List.any_eq_true]
  · intro m1 m2 m3 err h
    simp only [isGitAuthError, errChain, List.any_cons, Bool.or_eq_true] at h ⊢
    exact Or.inr (Or.inr (Or.inr h))

/-- C2 witness: a "authentication failed" message found at wrapping depth 3. -/
theorem git_auth_error_classification_witness :
    isGitAuthError (.wrapped "failed to clone repository" (.wrapped "second level"
      (.wrapped "third level" (.base "fatal: Authentication failed for repo")))) = true :=
  git_auth_error_classification.2 "failed to clone repository" "second level" "third level"
    _ (by decide)

/-- C3: the retry wrapper makes at most 3 attempts, sleeps 200ms before
attempt 2 and 400ms before attempt 3 (the sleeps taken are always the
matching prefix of [200, 400]), returns the first non-access error
immediately without further attempts, and returns the distinguished
`ErrorGitRepositoryAccessFailed` after 3 access-classified failures. -/
theorem git_retry_policy :
    (∀ f : Nat → Option GoError,
      (ensureGitRepositoryWithRetries f).attempts ≤ 3 ∧
      (ensureGitRepositoryWithRetries f).sleepsMs =
        List.take ((ensureGitRepositoryWithRetries f).attempts - 1) [200, 400]) ∧
    (∀ f : Nat → Option GoError, ∀ k : Nat, ∀ e : GoError, k < 3 →
      (∀ j, j < k → ∃ ej, f j = some ej ∧ isGitAuthError ej = true) →
      f k = some e → isGitAuthError e = false →
      ensureGitRepositoryWithRetries f = ⟨k + 1, List.take k [200, 400], some e⟩) ∧
    (∀ f : Nat → Option GoError,
      (∀ j, j < 3 → ∃ ej, f j = some ej ∧ isGitAuthError ej = true) →
      ensureGitRepositoryWithRetries f =
        ⟨3, [200, 400], some ErrorGitRepositoryAccessFailed⟩) := by
  refine ⟨?_, ?_, ?_⟩
  · intro f
    rw [retry_characterization f]
    cases h0 : f 0 with
    | none => simp
    | some e0 =>
      by_cases a0 : isGitAuthError e0 <;> simp [a0]
      cases h1 : f 1 with
      | none => simp
      | some e1 =>
        by_cases a1 : isGitAuthError e1 <;> simp [a1]
        cases h2 : f 2 with
        | none => simp
        | some e2 => by_cases a2 : isGitAuthError e2 <;> simp [a2]
  · intro f k e hk hprev hke hnot
    rw [retry_characterization f]
    interval_cases k
    · rw [hke]; simp [hnot]
    · obtain ⟨e0, he0, ha0⟩ := hprev 0 (by norm_num)
      rw [he0, hke]; simp [ha0, hnot]
    · obtain ⟨e0, he0, ha0⟩ := hprev 0 (by norm_num)
      obtain ⟨e1, he1, ha1⟩ := hprev 1 (by norm_num)
      rw [he0, he1, hke]; simp [ha0, ha1, hnot]
  · intro f hall
    rw [retry_characterization f]
    obtain ⟨e0, he0, ha0⟩ := hall 0 (by norm_num)
    obtain ⟨e1, he1, ha1⟩ := hall 1 (by norm_num)
    obtain ⟨e2, he2, ha2⟩ := hall 2 (by norm_num)
    rw [he0, he1, he2]; simp [ha0, ha1, ha2]

/-- C3 witness: attempt 1 fails with an access error, attempt 2 fails with
a non-access error and is returned immediately after a single 200ms sleep. -/
theorem git_retry_policy_witness :
    ensureGitRepositoryWithRetries (fun k =>
      if k = 0 then some (.base "remote: Repository not found.")
      else some (.base "pnpm install failed")) =
      ⟨2, [200], some (.base "pnpm install failed")⟩ := by
  have h := git_retry_policy.2.1 (fun k =>
      if k = 0 then some (.base "remote: Repository not found.")
      else some (.base "pnpm install failed")) 1 (.base "pnpm install failed")
    (by norm_num)
    (by
      intro j hj
      interval_cases j
      exact ⟨.base "remote: Repository not found.", rfl, by decide⟩)
    rfl (by decide)
  simpa using h

/-- C4 counterexample: the input " git@github.com:o/r" (leading space)
matches neither anchored pattern — the regex stage rejects it — yet
`ParseRemoteURL` parses it successfully to (o, r), because the code first
applies `strings.TrimSpace`: a normalization beyond stripping the trailing
`.git`, contradicting the claim's "matching neither pattern fails parsing"
and "no other normalization" clauses. -/
theorem parse_remote_url_trimspace_counterexample :
    parseOk (ParseRemoteURLCore " git@github.com:o/r") = none ∧
    parseOk (ParseRemoteURL " git@github.com:o/r") = some ⟨"o", "r"⟩ := ⟨rfl, rfl⟩

/-- C4 (amended): after trimming leading/trailing whitespace, the SSH and
HTTPS forms, each with or without a trailing `.git`, all parse to the same
(owner, repo) pair with the `.git` suffix stripped and no case folding;
every input whose trimmed form starts with neither pattern head fails
parsing, as do inputs with a missing slash, a wrong host, or a trailing
slash; the only normalization beyond stripping the trailing `.git` is the
whitespace trim. -/
theorem parse_remote_url_roundtrip :
    (∀ owner repo : String,
      owner ≠ "" → repo ≠ "" →
      '/' ∉ owner.data → '/' ∉ repo.data →
      (∀ ch ∈ repo.data, ch.isWhitespace = false) →
      strEndsWith repo ".git" = false →
      ParseRemoteURL ("git@github.com:" ++ owner ++ "/" ++ repo) =
        .ok ⟨owner, repo⟩ ∧
      ParseRemoteURL ("git@github.com:" ++ owner ++ "/" ++ repo ++ ".git") =
        .ok ⟨owner, repo⟩ ∧
      ParseRemoteURL ("https://github.com/" ++ owner ++ "/" ++ repo) =
        .ok ⟨owner, repo⟩ ∧
      ParseRemoteURL ("https://github.com/" ++ owner ++ "/" ++ repo ++ ".git") =
        .ok ⟨owner, repo⟩) ∧
    (∀ s : String,
      strStartsWith (strTrimSpace s) "git@github.com:" = false →
      strStartsWith (strTrimSpace s) "https://github.com/" = false →
      parseOk (ParseRemoteURL s) = none) ∧
    (∀ owner repo : String, '/' ∉ owner.data →
      parseOk (ParseRemoteURL
        ("https://github.com/" ++ owner ++ "/" ++ repo ++ "/")) = none) ∧
    (parseOk (ParseRemoteURL "git@github.com:ownerrepo") = none ∧
     parseOk (ParseRemoteURL "git@gitlab.com:o/r") = none ∧
     parseOk (ParseRemoteURL "https://gitlab.com/o/r") = none) := by
  refine ⟨?_, ?_, ?_, rfl, rfl, rfl⟩
  · intro owner repo ho hr ho' hr' hws hg
    have hone : owner.data ≠ [] := fun h => ho (String.ext (by simpa using h))
    have hrne : repo.data ≠ [] := fun h => hr (String.ext (by simpa using h))
    have hoe : owner.data.isEmpty = false := by
      cases howd : owner.data with
      | nil => exact absurd howd hone
      | cons a as => rfl
    refine ⟨?_, ?_, ?_, ?_⟩
    · have e1 : ("git@github.com:" ++ owner ++ "/" ++ repo : String) =
          "git@github.com:" ++ (owner ++ "/" ++ repo) := by
        apply String.ext; simp
      rw [e1]
      have hback : dropLeadingSpace
          ("git@github.com:" ++ (owner ++ "/" ++ repo)).data.reverse =
          ("git@github.com:" ++ (owner ++ "/" ++ repo)).data.reverse := by
        have hz : ("git@github.com:" ++ (owner ++ "/" ++ repo)).data =
            (("git@github.com:" : String).data ++ owner.data ++ ['/']) ++
              repo.data := by simp
        rw [hz]
        exact dropLeadingSpace_reverse_ends _ repo hrne hws
      have htrim := strTrimSpace_build "git@github.com:" (owner ++ "/" ++ repo)
        'g' _ rfl (by decide) hback
      unfold ParseRemoteURL
      rw [htrim, ParseRemoteURLCore_ssh,
        parseOwnerRepoTail_no_git owner repo hrne ho' hr' hg, hoe]
      simp
    · have e2 : ("git@github.com:" ++ owner ++ "/" ++ repo ++ ".git" : String) =
          "git@github.com:" ++ (owner ++ "/" ++ repo ++ ".git") := by
        apply String.ext; simp
      rw [e2]
      have hback : dropLeadingSpace
          ("git@github.com:" ++ (owner ++ "/" ++ repo ++ ".git")).data.reverse =
          ("git@github.com:" ++ (owner ++ "/" ++ repo ++ ".git")).data.reverse := by
        have hz : ("git@github.com:" ++ (owner ++ "/" ++ repo ++ ".git")).data =
            (("git@github.com:" : String).data ++ owner.data ++ ['/'] ++
              repo.data) ++ (".git" : String).data := by simp
        rw [hz]
        exact dropLeadingSpace_reverse_ends _ ".git" (by decide) (by decide)
      have htrim := strTrimSpace_build "git@github.com:"
        (owner ++ "/" ++ repo ++ ".git") 'g' _ rfl (by decide) hback
      unfold ParseRemoteURL
      rw [htrim, ParseRemoteURLCore_ssh,
        parseOwnerRepoTail_git owner repo hone hrne ho' hr' hg]
    · have e3 : ("https://github.com/" ++ owner ++ "/" ++ repo : String) =
          "https://github.com/" ++ (owner ++ "/" ++ repo) := by
        apply String.ext; simp
      rw [e3]
      have hback : dropLeadingSpace
          ("https://github.com/" ++ (owner ++ "/" ++ repo)).data.reverse =
          ("https://github.com/" ++ (owner ++ "/" ++ repo)).data.reverse := by
        have hz : ("https://github.com/" ++ (owner ++ "/" ++ repo)).data =
            (("https://github.com/" : String).data ++ owner.data ++ ['/']) ++
              repo.data := by simp
        rw [hz]
        exact dropLeadingSpace_reverse_ends _ repo hrne hws
      have htrim := strTrimSpace_build "https://github.com/"
        (owner ++ "/" ++ repo) 'h' _ rfl (by decide) hback
      unfold ParseRemoteURL
      rw [htrim, ParseRemoteURLCore_https,
        parseOwnerRepoTail_no_git owner repo hrne ho' hr' hg, hoe]
      simp
    · have e4 : ("https://github.com/" ++ owner ++ "/" ++ repo ++ ".git" : String) =
          "https://github.com/" ++ (owner ++ "/" ++ repo ++ ".git") := by
        apply String.ext; simp
      rw [e4]
      have hback : dropLeadingSpace
          ("https://github.com/" ++ (owner ++ "/" ++ repo ++ ".git")).data.reverse =
          ("https://github.com/" ++ (owner ++ "/" ++ repo ++ ".git")).data.reverse := by
        have hz : ("https://github.com/" ++ (owner ++ "/" ++ repo ++ ".git")).data =
            (("https://github.com/" : String).data ++ owner.data ++ ['/'] ++
              repo.data) ++ (".git" : String).data := by simp
        rw [hz]
        exact dropLeadingSpace_reverse_ends _ ".git" (by decide) (by decide)
      have htrim := strTrimSpace_build "https://github.com/"
        (owner ++ "/" ++ repo ++ ".git") 'h' _ rfl (by decide) hback
      unfold ParseRemoteURL
      rw [htrim, ParseRemoteURLCore_https,
        parseOwnerRepoTail_git owner repo hone hrne ho' hr' hg]
  · intro s h1 h2
    unfold ParseRemoteURL ParseRemoteURLCore
    rw [h1, h2]
    simp [parseOk]
  · intro owner repo ho'
    have e5 : ("https://github.com/" ++ owner ++ "/" ++ repo ++ "/" : String) =
        "https://github.com/" ++ (owner ++ "/" ++ repo ++ "/") := by
      apply String.ext; simp
    rw [e5]
    have hback : dropLeadingSpace
        ("https://github.com/" ++ (owner ++ "/" ++ repo ++ "/")).data.reverse =
        ("https://github.com/" ++ (owner ++ "/" ++ repo ++ "/")).data.reverse := by
      have hz : ("https://github.com/" ++ (owner ++ "/" ++ repo ++ "/")).data =
          (("https://github.com/" : String).data ++ owner.data ++ ['/'] ++
            repo.data) ++ ("/" : String).data := by simp
      rw [hz]
      exact dropLeadingSpace_reverse_ends _ "/" (by decide) (by decide)
    have htrim := strTrimSpace_build "https://github.com/"
      (owner ++ "/" ++ repo ++ "/") 'h' _ rfl (by decide) hback
    unfold ParseRemoteURL
    rw [htrim, ParseRemoteURLCore_https]
    have htail : parseOwnerRepoTail (owner ++ "/" ++ repo ++ "/") = none := by
      obtain ⟨lo⟩ := owner
      obtain ⟨lr⟩ := repo
      have hdata : (String.mk lo ++ "/" ++ String.mk lr ++ "/").data =
          lo ++ '/' :: (lr ++ ['/']) := by simp
      unfold parseOwnerRepoTail
      rw [hdata, breakAtSlash_append lo _ ho']
      by_cases hlo : lo.isEmpty
      · simp [hlo]
      · have hlr2 : (lr ++ ['/']).isEmpty = false := by cases lr <;> rfl
        have hcont : (lr ++ ['/']).contains '/' = true := by
          rw [List.contains_eq_any_beq, List.any_eq_true]
          exact ⟨'/', by simp, by simp⟩
        simp [hlo, hlr2, hcont]
    rw [htail]
    simp [parseOk]

/-- C4 witness: a mixed-case owner/repo pair parsed from the SSH form and
from the HTTPS form with a `.git` suffix, preserving case. -/
theorem parse_remote_url_roundtrip_witness :
    ParseRemoteURL "git@github.com:AcmeOrg/Site-2" = .ok ⟨"AcmeOrg", "Site-2"⟩ ∧
    ParseRemoteURL "https://github.com/AcmeOrg/Site-2.git" =
      .ok ⟨"AcmeOrg", "Site-2"⟩ := by
  have h := parse_remote_url_roundtrip.1 "AcmeOrg" "Site-2"
    (by decide) (by decide) (by decide) (by decide) (by decide) (by decide)
  exact ⟨h.1, h.2.2.2⟩

/-- C5: when the first access check succeeds, the reconciler returns success
immediately with no collaborator-add call, no username resolution and no
propagation polling; and the probe itself runs `git ls-remote --heads`
against the SSH URL when SSH connectivity is available, else against the
HTTPS URL. -/
theorem reconciler_immediate_success :
    (∀ sshURL httpsURL : String, ∀ opts : EnsureRepositoryAccessOptions,
      ∀ env : AccessEnv,
      CheckRepositoryAccess (env.probeEnvs 0) sshURL httpsURL = true →
      EnsureRepositoryAccessWithOptions sshURL httpsURL opts env =
        (none, ⟨0, none, 0⟩)) ∧
    (∀ p : ProbeEnv, ∀ sshURL httpsURL : String,
      (p.canUseSSH = true → sshURL ≠ "" →
        CheckRepositoryAccess p sshURL httpsURL = p.lsRemoteOk sshURL) ∧
      (p.canUseSSH = false → httpsURL ≠ "" →
        CheckRepositoryAccess p sshURL httpsURL = p.lsRemoteOk httpsURL)) := by
  constructor
  · intro sshURL httpsURL opts env h
    simp [EnsureRepositoryAccessWithOptions, h]
  · intro p sshURL httpsURL
    constructor
    · intro hssh hurl
      simp [CheckRepositoryAccess, hssh, hurl]
    · intro hssh hurl
      simp [CheckRepositoryAccess, hssh, hurl]

/-- C5 witness: a concrete environment whose probe always succeeds. -/
theorem reconciler_immediate_success_witness :
    EnsureRepositoryAccessWithOptions "git@github.com:acme/site.git"
      "https://github.com/acme/site.git" ⟨false, ""⟩
      ⟨fun _ => ⟨true, fun _ => true⟩, "", none, .ok "", none⟩ =
      (none, ⟨0, none, 0⟩) :=
  reconciler_immediate_success.1 "git@github.com:acme/site.git"
    "https://github.com/acme/site.git" ⟨false, ""⟩
    ⟨fun _ => ⟨true, fun _ => true⟩, "", none, .ok "", none⟩ rfl

/-- C6: in non-interactive mode the reconciler never enters the propagation
poll loop: once the collaborator-add call succeeds it returns the
invitation-pending error carrying https://github.com/owner/repo and zero
poll checks; and when no username is resolvable from the flag, the
credential store or auto-detection, it fails fast with the descriptive
error instead of prompting. -/
theorem reconciler_non_interactive :
    (∀ sshURL httpsURL owner repo : String,
      ∀ opts : EnsureRepositoryAccessOptions, ∀ env : AccessEnv,
      opts.nonInteractive = true →
      CheckRepositoryAccess (env.probeEnvs 0) sshURL httpsURL = false →
      (opts.githubUsername ≠ "" ∨ env.storedUsername ≠ "" ∨
        (∃ u, env.detectedUsername = some u ∧ u ≠ "")) →
      env.addCollabError = none →
      httpsURL ≠ "" →
      ParseRemoteURL httpsURL = .ok ⟨owner, repo⟩ →
      (EnsureRepositoryAccessWithOptions sshURL httpsURL opts env).1 =
        some (.invitationPending ("https://github.com/" ++ owner ++ "/" ++ repo)) ∧
      (EnsureRepositoryAccessWithOptions sshURL httpsURL opts env).2.pollChecks = 0) ∧
    (∀ sshURL httpsURL : String,
      ∀ opts : EnsureRepositoryAccessOptions, ∀ env : AccessEnv,
      opts.nonInteractive = true →
      CheckRepositoryAccess (env.probeEnvs 0) sshURL httpsURL = false →
      opts.githubUsername = "" → env.storedUsername = "" →
      (env.detectedUsername = none ∨ env.detectedUsername = some "") →
      EnsureRepositoryAccessWithOptions sshURL httpsURL opts env =
        (some (.base "could not detect GitHub username. Run 'major user login' to set up GitHub access"),
         ⟨0, none, 0⟩)) := by
  constructor
  · intro sshURL httpsURL owner repo opts env hni hprobe hres hadd hhttps hparse
    have hresolve : ∃ u, resolveGithubUsername opts env = .ok u := by
      rcases hres with h | h | ⟨u, hu, hune⟩
      · exact ⟨opts.githubUsername, by simp [resolveGithubUsername, h]⟩
      · unfold resolveGithubUsername
        by_cases hflag : opts.githubUsername = ""
        · by_cases hstored : env.storedUsername = ""
          · exact absurd hstored h
          · exact ⟨env.storedUsername, by simp [hflag, hstored]⟩
        · exact ⟨opts.githubUsername, by simp [hflag]⟩
      · unfold resolveGithubUsername
        by_cases hflag : opts.githubUsername = ""
        · by_cases hstored : env.storedUsername = ""
          · exact ⟨u, by simp [hflag, hstored, hu, hune]⟩
          · exact ⟨env.storedUsername, by simp [hflag, hstored]⟩
        · exact ⟨opts.githubUsername, by simp [hflag]⟩
    obtain ⟨u, hu⟩ := hresolve
    have hurl : ExtractGitHubURL httpsURL =
        .ok ("https://github.com/" ++ owner ++ "/" ++ repo) := by
      simp [ExtractGitHubURL, hhttps, hparse]
    have hrun : EnsureRepositoryAccessWithOptions sshURL httpsURL opts env =
        (some (.invitationPending ("https://github.com/" ++ owner ++ "/" ++ repo)),
         ⟨1, some u, 0⟩) := by
      simp [EnsureRepositoryAccessWithOptions, hprobe, hu,
        ensureAfterUsername, hadd, hhttps, hurl, hni]
    rw [hrun]
    exact ⟨rfl, rfl⟩
  · intro sshURL httpsURL opts env hni hprobe hflag hstored hdet
    have hres : resolveGithubUsername opts env =
        .error (.base "could not detect GitHub username. Run 'major user login' to set up GitHub access") := by
      rcases hdet with h | h <;>
        simp [resolveGithubUsername, hflag, hstored, h, hni]
    simp [EnsureRepositoryAccessWithOptions, hprobe, hres]

/-- C6 witness: both branches at concrete environments — a flag-supplied
username yields the invitation-pending error with the derived URL, and an
unresolvable username fails fast. -/
theorem reconciler_non_interactive_witness :
    (EnsureRepositoryAccessWithOptions "git@github.com:acme/site.git"
      "https://github.com/acme/site.git" ⟨true, "octocat"⟩
      ⟨fun _ => ⟨false, fun _ => false⟩, "", none, .ok "", none⟩).1 =
      some (.invitationPending "https://github.com/acme/site") ∧
    EnsureRepositoryAccessWithOptions "git@github.com:acme/site.git"
      "https://github.com/acme/site.git" ⟨true, ""⟩
      ⟨fun _ => ⟨false, fun _ => false⟩, "", none, .ok "", none⟩ =
      (some (.base "could not detect GitHub username. Run 'major user login' to set up GitHub access"),
       ⟨0, none, 0⟩) :=
  ⟨(reconciler_non_interactive.1 "git@github.com:acme/site.git"
      "https://github.com/acme/site.git" "acme" "site" ⟨true, "octocat"⟩
      ⟨fun _ => ⟨false, fun _ => false⟩, "", none, .ok "", none⟩
      rfl rfl (Or.inl (by decide)) rfl (by decide) rfl).1,
   reconciler_non_interactive.2 "git@github.com:acme/site.git"
      "https://github.com/acme/site.git" ⟨true, ""⟩
      ⟨fun _ => ⟨false, fun _ => false⟩, "", none, .ok "", none⟩
      rfl rfl rfl rfl (Or.inl rfl)⟩

/-- C7: the propagation poll runs on a 2-second interval inside a 5-minute
window (at most 300/2 checks with instantaneous checks): it returns true at
the first positive check (earlier negative checks are retried silently),
returns false when every check in the window is negative, and in that case
the interactive reconciler surfaces exactly `ErrorRepositoryAccessTimeout`. -/
theorem reconciler_propagation_poll :
    pollIntervalSeconds = 2 ∧ pollTimeoutSeconds = 300 ∧
    maxPollChecks = 150 ∧
    (∀ check : Nat → Bool, ∀ k : Nat, k < maxPollChecks →
      (∀ j, j < k → check j = false) → check k = true →
      pollForRepositoryAccess check = (true, k + 1)) ∧
    (∀ check : Nat → Bool, (∀ j, j < maxPollChecks → check j = false) →
      pollForRepositoryAccess check = (false, maxPollChecks)) ∧
    (∀ sshURL httpsURL u : String,
      ∀ opts : EnsureRepositoryAccessOptions, ∀ env : AccessEnv,
      opts.nonInteractive = false →
      CheckRepositoryAccess (env.probeEnvs 0) sshURL httpsURL = false →
      resolveGithubUsername opts env = .ok u →
      env.addCollabError = none →
      (∀ k, k < maxPollChecks →
        CheckRepositoryAccess (env.probeEnvs (k + 1)) sshURL httpsURL = false) →
      EnsureRepositoryAccessWithOptions sshURL httpsURL opts env =
        (some ErrorRepositoryAccessTimeout, ⟨1, some u, maxPollChecks⟩)) := by
  refine ⟨rfl, rfl, rfl, ?_, ?_, ?_⟩
  · intro check k hk hfalse htrue
    exact pollAux_first_success check maxPollChecks 0 k hk
      (fun j hj => by simpa using hfalse j hj) (by simpa using htrue)
  · intro check hfalse
    exact pollAux_timeout check maxPollChecks 0
      (fun j hj => by simpa using hfalse j hj)
  · intro sshURL httpsURL u opts env hni hprobe hres hadd hfail
    have hpoll : pollForRepositoryAccess
        (fun k => CheckRepositoryAccess (env.probeEnvs (k + 1)) sshURL httpsURL) =
        (false, maxPollChecks) :=
      pollAux_timeout _ maxPollChecks 0 (fun j hj => by simpa using hfail j hj)
    simp [EnsureRepositoryAccessWithOptions, hprobe, hres,
      ensureAfterUsername, hadd, hni, hpoll]

/-- C7 witness: two negative checks then a positive one — the poll returns
true on the first positive check, after 3 checks. -/
theorem reconciler_propagation_poll_witness :
    pollForRepositoryAccess (fun k => decide (2 ≤ k)) = (true, 3) :=
  reconciler_propagation_poll.2.2.2.1 (fun k => decide (2 ≤ k)) 2 (by decide)
    (by intro j hj; interval_cases j <;> decide) (by decide)

/-- C8: a transport error during a status fetch stops the poller at once —
the error is surfaced as the final outcome, exactly the fetches before and
including the failing one are performed, and nothing after the failure is
fetched (the result does not depend on the rest of the sequence). -/
theorem deploy_poller_transport_error_stops
    (pre : List FetchResult) (e : GoError) (post : List FetchResult)
    (hpre : ∀ f ∈ pre, ∃ r, f = .ok r ∧ isTerminalStatus r.status = false) :
    pollDeploymentStatus (pre ++ .fetchFailed e :: post) =
      (.transportError e, pre.length + 1) := by
  induction pre with
  | nil => simp [pollDeploymentStatus]
  | cons f fs ih =>
    obtain ⟨r, rfl, hterm⟩ := hpre f (by simp)
    have ih2 := ih (fun g hg => hpre g (by simp [hg]))
    simp [pollDeploymentStatus, hterm, ih2]

/-- C8 witness: one non-terminal fetch, then a transport error; the pending
DEPLOYED response after it is never fetched. -/
theorem deploy_poller_transport_error_stops_witness :
    pollDeploymentStatus [.ok ⟨"BUNDLING", "", ""⟩,
      .fetchFailed (.base "connection reset"), .ok ⟨"DEPLOYED", "", ""⟩] =
      (.transportError (.base "connection reset"), 2) := by
  have h := deploy_poller_transport_error_stops [.ok ⟨"BUNDLING", "", ""⟩]
    (.base "connection reset") [.ok ⟨"DEPLOYED", "", ""⟩]
    (by
      intro f hf
      rw [List.mem_singleton] at hf
      exact ⟨⟨"BUNDLING", "", ""⟩, hf, by decide⟩)
  simpa using h

/-- C9: for every message and non-nil error, `WrapError` returns an error
whose top-level message is the given message; when the wrapped error's
chain holds no `CLIError`, the original error stays reachable in the
result's unwrap chain (`errors.Is` holds); and when the chain holds a
`CLIError`, the result's Suggestion is that `CLIError`'s Suggestion. -/
theorem wrap_error_preserves (m : String) (e : GoError) (hne : e ≠ .nilErr) :
    errMsg (WrapError m e) = m ∧
    (firstCLIError e = none → errChainContains (WrapError m e) e = true) ∧
    (∀ t s i, firstCLIError e = some (t, s, i) →
      cliSuggestion (WrapError m e) = some s) := by
  refine ⟨?_, ?_, ?_⟩
  · cases h : firstCLIError e with
    | none => simp [WrapError, h, errMsg]
    | some tsi =>
      obtain ⟨t, s, i⟩ := tsi
      simp [WrapError, h, errMsg]
  · intro h
    have hwrap : WrapError m e = .cli m "" (fmtErrorfWrap m e) := by
      simp [WrapError, h]
    have hfmt : fmtErrorfWrap m e = .wrapped (m ++ ": " ++ errMsg e) e := by
      cases e <;> first | rfl | exact absurd rfl hne
    have hmem : e ∈ errChain (WrapError m e) := by
      rw [hwrap, hfmt]
      have h1 : errChain (GoError.cli m ""
          (.wrapped (m ++ ": " ++ errMsg e) e)) =
          GoError.cli m "" (.wrapped (m ++ ": " ++ errMsg e) e) ::
            errChain (.wrapped (m ++ ": " ++ errMsg e) e) := by
        simp [errChain]
      rw [h1]
      have h2 : errChain (GoError.wrapped (m ++ ": " ++ errMsg e) e) =
          GoError.wrapped (m ++ ": " ++ errMsg e) e :: errChain e := by
        simp [errChain]
      rw [h2]
      exact List.mem_cons_of_mem _ (List.mem_cons_of_mem _ (mem_errChain_self e hne))
    simp only [errChainContains, List.any_eq_true, beq_iff_eq]
    exact ⟨e, hmem, rfl⟩
  · intro t s i h
    simp [WrapError, h, cliSuggestion]

/-- C9 witness: wrapping a plain error keeps it reachable with the message
on top, and wrapping a chain holding a `CLIError` keeps its suggestion. -/
theorem wrap_error_preserves_witness :
    errMsg (WrapError "failed to get application" (.base "boom")) =
      "failed to get application" ∧
    errChainContains (WrapError "failed to get application" (.base "boom"))
      (.base "boom") = true ∧
    cliSuggestion (WrapError "ctx" (.wrapped "outer" (.cli "Not logged in!"
      "Run 'major user login' to get started." (.base "user not logged in")))) =
      some "Run 'major user login' to get started." :=
  ⟨(wrap_error_preserves "failed to get application" (.base "boom") (by decide)).1,
   (wrap_error_preserves "failed to get application" (.base "boom") (by decide)).2.1
     (by decide),
   (wrap_error_preserves "ctx" (.wrapped "outer" (.cli "Not logged in!"
      "Run 'major user login' to get started." (.base "user not logged in")))
     (by decide)).2.2 "Not logged in!" "Run 'major user login' to get started."
     (.base "user not logged in") (by decide)⟩

/-- C10: `validateSlug` accepts a slug exactly when its byte length is
between 3 and 63, it matches the slug regex, it is not reserved, and it
does not start with "s-" or "vs-". -/
theorem validate_slug_iff (s : String) :
    validateSlug s = none ↔
      (3 ≤ utf8Len s ∧ utf8Len s ≤ 63 ∧ slugRegexMatch s = true ∧
       s ∉ reservedSlugs ∧
       strStartsWith s "s-" = false ∧ strStartsWith s "vs-" = false) := by
  unfold validateSlug
  split_ifs with h1 h2 h3 h4 h5
  · simp only [reduceCtorEq, false_iff]
    intro hc
    omega
  · simp only [reduceCtorEq, false_iff]
    intro hc
    omega
  · simp only [reduceCtorEq, false_iff]
    intro hc
    simp only [Bool.not_eq_true'] at h3
    simp_all
  · simp only [reduceCtorEq, false_iff]
    intro hc
    rw [List.contains_eq_any_beq] at h4
    simp only [List.any_eq_true, beq_iff_eq] at h4
    obtain ⟨x, hx, rfl⟩ := h4
    exact hc.2.2.2.1 hx
  · simp only [reduceCtorEq, false_iff]
    intro hc
    rcases Bool.or_eq_true _ _ |>.mp h5 with h | h
    · rw [hc.2.2.2.2.1] at h; exact Bool.false_ne_true h
    · rw [hc.2.2.2.2.2] at h; exact Bool.false_ne_true h
  · simp only [true_iff]
    refine ⟨by omega, by omega, by simpa using h3, ?_, ?_, ?_⟩
    · intro hm
      rw [List.contains_eq_any_beq] at h4
      simp only [List.any_eq_true, beq_iff_eq] at h4
      exact h4 ⟨s, hm, rfl⟩
    · exact (show strStartsWith s "s-" = false ∧ strStartsWith s "vs-" = false by
        simpa [Bool.or_eq_true] using h5).1
    · exact (show strStartsWith s "s-" = false ∧ strStartsWith s "vs-" = false by
        simpa [Bool.or_eq_true] using h5).2
